import Mathlib

/-!
Verification of the `sinum` crate (SI numbers, prefixes, units and quantities).

The Rust sources under `src/` are embedded shallowly:
* `f64` values are modelled as exact rationals (`ℚ`);
* `mantissa.log10().floor()` on a positive mantissa is modelled by `Int.log 10`,
  which is exactly the floor of the base-10 logarithm on positive rationals;
* a Rust `panic!` (for example a failing `.unwrap()`) is modelled by `none`
  (or by the dedicated result constructor `QtyResult.panic`);
* `Result<T, E>` is modelled by `Except E T` or by `QtyResult`.

`Prefix` from `src/prefix.rs` is named `Pfx` here, and the Rust methods
`with_prefix`/`to_prefix` are named `withPfx`/`toPfx`.
-/

namespace Sinum

/-- The SI prefixes, `enum Prefix` of `src/prefix.rs`.
Declaration order follows the source (most negative exponent first), so the
derived Rust ordering coincides with ordering by exponent. -/
inductive Pfx
  | Quecto | Ronto | Yocto | Zepto | Atto | Femto | Pico | Nano | Micro | Milli
  | Centi | Deci | Nothing | Deca | Hecto | Kilo | Mega | Giga | Tera | Peta
  | Exa | Zetta | Yotta | Ronna | Quetta
deriving DecidableEq

namespace Pfx

/-- `Prefix::MAX_EXP` from `src/prefix.rs`. -/
def MAX_EXP : Int := 30

/-- `Prefix::MIN_EXP` from `src/prefix.rs`. -/
def MIN_EXP : Int := -30

/-- `Prefix::exp` from `src/prefix.rs` (an `i8` in the source). -/
def exp : Pfx → Int
  | Quecto => -30
  | Ronto => -27
  | Yocto => -24
  | Zepto => -21
  | Atto => -18
  | Femto => -15
  | Pico => -12
  | Nano => -9
  | Micro => -6
  | Milli => -3
  | Centi => -2
  | Deci => -1
  | Nothing => 0
  | Deca => 1
  | Hecto => 2
  | Kilo => 3
  | Mega => 6
  | Giga => 9
  | Tera => 12
  | Peta => 15
  | Exa => 18
  | Zetta => 21
  | Yotta => 24
  | Ronna => 27
  | Quetta => 30

/-- `Prefix::as_f64` from `src/prefix.rs`: the literal table `1e-30`, …, `1e30`
(each literal is exactly the corresponding power of ten in `ℚ`). -/
def as_f64 : Pfx → ℚ
  | Quecto => 1e-30
  | Ronto => 1e-27
  | Yocto => 1e-24
  | Zepto => 1e-21
  | Atto => 1e-18
  | Femto => 1e-15
  | Pico => 1e-12
  | Nano => 1e-9
  | Micro => 1e-6
  | Milli => 1e-3
  | Centi => 1e-2
  | Deci => 1e-1
  | Nothing => 1.0
  | Deca => 1e1
  | Hecto => 1e2
  | Kilo => 1e3
  | Mega => 1e6
  | Giga => 1e9
  | Tera => 1e12
  | Peta => 1e15
  | Exa => 1e18
  | Zetta => 1e21
  | Yotta => 1e24
  | Ronna => 1e27
  | Quetta => 1e30

/-- `impl TryFrom<i8> for Prefix` from `src/prefix.rs`: exponent lookup.
`none` models the `Err(PrefixError::TryFromExp)` case. -/
def tryFrom (e : Int) : Option Pfx :=
  if e = -30 then some Quecto
  else if e = -27 then some Ronto
  else if e = -24 then some Yocto
  else if e = -21 then some Zepto
  else if e = -18 then some Atto
  else if e = -15 then some Femto
  else if e = -12 then some Pico
  else if e = -9 then some Nano
  else if e = -6 then some Micro
  else if e = -3 then some Milli
  else if e = -2 then some Centi
  else if e = -1 then some Deci
  else if e = 0 then some Nothing
  else if e = 1 then some Deca
  else if e = 2 then some Hecto
  else if e = 3 then some Kilo
  else if e = 6 then some Mega
  else if e = 9 then some Giga
  else if e = 12 then some Tera
  else if e = 15 then some Peta
  else if e = 18 then some Exa
  else if e = 21 then some Zetta
  else if e = 24 then some Yotta
  else if e = 27 then some Ronna
  else if e = 30 then some Quetta
  else none

/-- Rust's `Ord::max` on the derived ordering of `Prefix` (declaration order,
i.e. ordering by exponent): returns the second argument when equal. -/
def rustMax (a b : Pfx) : Pfx :=
  if a.exp ≤ b.exp then b else a

end Pfx

/-- `enum PrefixError` from `src/prefix.rs` (payloads as mathematical integers). -/
inductive PfxError
  | TryFromExp (e : Int)
  | TryFromStr (s : String)
  | ExpInvalid (e : Int)
deriving DecidableEq

/-- The saturating cast `exps as i8` used in `Num::shortened`
(`src/number.rs`): a finite `f64` casts to `i8` with saturation. -/
def satI8 (z : Int) : Int :=
  if z < -128 then -128 else if 127 < z then 127 else z

/-- `struct Num` from `src/number.rs`: a mantissa together with an SI prefix
(field `prefix` in the source, `pfx` here). -/
structure Num where
  mantissa : ℚ
  pfx : Pfx
deriving DecidableEq

namespace Num

/-- `Num::new` from `src/number.rs`. -/
def new (v : ℚ) : Num := ⟨v, Pfx.Nothing⟩

/-- `Num::with_prefix` from `src/number.rs`: relabel the prefix, keep the mantissa. -/
def withPfx (n : Num) (p : Pfx) : Num := ⟨n.mantissa, p⟩

/-- `Num::to_prefix` from `src/number.rs`: rescale the mantissa by
`old_prefix.as_f64() / new_prefix.as_f64()`. -/
def toPfx (n : Num) (p : Pfx) : Num :=
  ⟨n.mantissa * (n.pfx.as_f64 / p.as_f64), p⟩

/-- `Num::as_f64` from `src/number.rs`. -/
def as_f64 (n : Num) : ℚ := n.mantissa * n.pfx.as_f64

/-- `Num::shortened` from `src/number.rs`.

The source computes
`exps = self.mantissa.log10().floor().div_euclid(3.0) * 3.0`.
For a positive mantissa, `log10().floor()` is exactly `Int.log 10` on `ℚ`,
and `div_euclid(3.0)` is Euclidean division, which is `Int.ediv` (the `/` of
`ℤ`).  For a negative mantissa `f64::log10` is `NaN`: `NaN > 30.0` is
false, `NaN as i8` is `0`, so `exp_new = prefix.exp` and the lookup returns
the original prefix — the number is returned unchanged (up to
`to_prefix` with its own prefix).  The i8 addition
`self.prefix.exp() + exps as i8` cannot overflow toward positive values
(`exps ≤ 30` is checked), and a negative overflow (release mode: wrap-around)
lands outside the prefix table just like the unwrapped sum does, so plain
integer addition yields the same `Result` as the compiled code.  The source's
local bindings `exps` and `exp_new` are inlined here. -/
def shortened (n : Num) : Except PfxError Num :=
  if n.mantissa = 0 then .ok (Num.new 0)
  else if n.mantissa < 0 then .ok (n.toPfx n.pfx)
  else if Int.log 10 n.mantissa / 3 * 3 > Pfx.MAX_EXP then
    .error (.ExpInvalid (Int.log 10 n.mantissa / 3 * 3))
  else
    match Pfx.tryFrom (n.pfx.exp + satI8 (Int.log 10 n.mantissa / 3 * 3)) with
    | some p => .ok (n.toPfx p)
    | none => .error (.TryFromExp (n.pfx.exp + satI8 (Int.log 10 n.mantissa / 3 * 3)))

/-- `impl Add for Num` from `src/number.rs`. -/
def add (a b : Num) : Num :=
  (Num.new (a.as_f64 + b.as_f64)).toPfx (Pfx.rustMax a.pfx b.pfx)

/-- `impl Add<f64> for Num` from `src/number.rs`. -/
def addF64 (a : Num) (s : ℚ) : Num :=
  (Num.new (a.as_f64 + s)).toPfx a.pfx

/-- `impl Sub for Num` from `src/number.rs`. -/
def sub (a b : Num) : Num :=
  (Num.new (a.as_f64 - b.as_f64)).toPfx (Pfx.rustMax a.pfx b.pfx)

/-- `impl Sub<f64> for Num` from `src/number.rs`. -/
def subF64 (a : Num) (s : ℚ) : Num :=
  (Num.new (a.as_f64 - s)).toPfx a.pfx

/-- `impl Mul for Num` from `src/number.rs`. -/
def mul (a b : Num) : Num :=
  (Num.new (a.as_f64 * b.as_f64)).toPfx (Pfx.rustMax a.pfx b.pfx)

/-- `impl Mul<f64> for Num` from `src/number.rs`. -/
def mulF64 (a : Num) (s : ℚ) : Num :=
  (Num.new (a.as_f64 * s)).toPfx a.pfx

/-- `impl Div for Num` from `src/number.rs`. -/
def div (a b : Num) : Num :=
  (Num.new (a.as_f64 / b.as_f64)).toPfx (Pfx.rustMax a.pfx b.pfx)

/-- `impl Div<f64> for Num` from `src/number.rs`. -/
def divF64 (a : Num) (s : ℚ) : Num :=
  (Num.new (a.as_f64 / s)).toPfx a.pfx

/-- `impl MulAssign<f64> for Num` from `src/number.rs`: `self.mantissa *= rhs`. -/
def mulAssign (n : Num) (s : ℚ) : Num := ⟨n.mantissa * s, n.pfx⟩

/-- `impl PartialEq for Num` from `src/number.rs`: compares resolved values. -/
def numEq (a b : Num) : Bool := decide (a.as_f64 = b.as_f64)

end Num

/-- `enum PhysicalQuantity` from `src/unit.rs`. -/
inductive PhysicalQuantity
  | Custom | Current | LuminousIntensity | Temperature | Mass | Length
  | Amount | Time | Pressure | Radiation
deriving DecidableEq

/-- `enum Unit` from `src/unit.rs`. -/
inductive Unit
  | Custom (name : String)
  | Ampere | Candela | Kelvin | Kilogram | Meter | Mole | Second
  | Gram | Tonne
  | AstronomicalUnit | Lightyear | Parsec
  | Pascal | Bar | Sievert
deriving DecidableEq

namespace Unit

/-- `Unit::phys` from `src/unit.rs`: every `Custom` unit is mapped to the
single tag `PhysicalQuantity::Custom`, regardless of its name. -/
def phys : Unit → PhysicalQuantity
  | Custom _ => .Custom
  | Ampere => .Current
  | Candela => .LuminousIntensity
  | Kelvin => .Temperature
  | Kilogram => .Mass
  | Gram => .Mass
  | Tonne => .Mass
  | Meter => .Length
  | AstronomicalUnit => .Length
  | Lightyear => .Length
  | Parsec => .Length
  | Mole => .Amount
  | Second => .Time
  | Pascal => .Pressure
  | Bar => .Pressure
  | Sievert => .Radiation

/-- `Unit::factor` from `src/unit.rs`: factor to the base unit of the same
physical quantity. -/
def factor : Unit → ℚ
  | Custom _ => 1.0
  | Ampere => 1.0
  | Candela => 1.0
  | Kelvin => 1.0
  | Kilogram => 1.0
  | Meter => 1.0
  | Mole => 1.0
  | Second => 1.0
  | Pascal => 1.0
  | Sievert => 1.0
  | Gram => 1e-3
  | Tonne => 1e3
  | AstronomicalUnit => 149597870700.0
  | Lightyear => 9460730472580800.0
  | Parsec => 30.85677581e15
  | Bar => 1e5

/-- `Unit::base` from `src/unit.rs`. -/
def base : Unit → Unit
  | Custom x => Custom x
  | Ampere => Ampere
  | Candela => Candela
  | Kelvin => Kelvin
  | Kilogram => Kilogram
  | Meter => Meter
  | Mole => Mole
  | Second => Second
  | Gram => Kilogram
  | Tonne => Kilogram
  | AstronomicalUnit => Meter
  | Lightyear => Meter
  | Parsec => Meter
  | Pascal => Pascal
  | Bar => Pascal
  | Sievert => Sievert

end Unit

/-- `struct Qty` from `src/quantity.rs`. -/
structure Qty where
  number : Num
  unit : Unit
deriving DecidableEq

/-- Result of a `Qty` operation.  `panic` models a Rust panic (a failing
`.unwrap()`), `unitErr` models `Err(UnitError::UnitMismatch(vec![a, b]))`,
`pfxErr` models `Err(PrefixError…)`. -/
inductive QtyResult
  | panic
  | unitErr (a b : Unit)
  | pfxErr (e : PfxError)
  | ok (q : Qty)
deriving DecidableEq

namespace Qty

/-- `Qty::new` from `src/quantity.rs`, with the kilogram/gram prefix
canonicalization.  `none` models the panic of
`Prefix::try_from(exp_new).unwrap()` when `exp_new` is not in the table. -/
def new (number : Num) (unit : Unit) : Option Qty :=
  if unit = Unit.Kilogram ∧ number.pfx ≠ Pfx.Nothing then
    match Pfx.tryFrom (number.pfx.exp + 3) with
    | some p => some ⟨number.withPfx p, Unit.Gram⟩
    | none => none
  else if unit = Unit.Gram ∧ number.pfx = Pfx.Kilo then
    some ⟨number.withPfx Pfx.Nothing, Unit.Kilogram⟩
  else
    some ⟨number, unit⟩

/-- `Qty::as_f64` from `src/quantity.rs`. -/
def as_f64 (q : Qty) : ℚ := q.number.as_f64 * q.unit.factor

/-- `Qty::phys` from `src/quantity.rs`. -/
def phys (q : Qty) : PhysicalQuantity := q.unit.phys

/-- `Qty::to_prefix` from `src/quantity.rs`: delegate to `Num::to_prefix`,
then rebuild through `Qty::new`. -/
def toPfx (q : Qty) (p : Pfx) : Option Qty :=
  Qty.new (q.number.toPfx p) q.unit

/-- `Qty::to_unit` from `src/quantity.rs`. -/
def to_unit (q : Qty) (unit : Unit) : QtyResult :=
  if q.phys ≠ unit.phys then .unitErr q.unit unit
  else
    match Qty.new (q.number.mulF64 (q.unit.factor / unit.factor)) unit with
    | some q' => .ok q'
    | none => .panic

/-- `Qty::shortened` from `src/quantity.rs`: shorten the number, rebuild
through `Qty::new`. -/
def shortened (q : Qty) : QtyResult :=
  match q.number.shortened with
  | .error e => .pfxErr e
  | .ok n =>
    match Qty.new n q.unit with
    | some q' => .ok q'
    | none => .panic

/-- The common body of the `Qty` arithmetic operators in `src/quantity.rs`:
`Self::new(val.into(), &self.unit.base()).to_unit(&self.unit).unwrap()
.to_prefix(self.number.prefix())`. -/
def rebuild (a : Qty) (val : ℚ) : QtyResult :=
  match Qty.new (Num.new val) a.unit.base with
  | none => .panic
  | some q0 =>
    match q0.to_unit a.unit with
    | .ok q1 =>
      match q1.toPfx a.number.pfx with
      | some q2 => .ok q2
      | none => .panic
    | _ => .panic

/-- `impl Add for Qty` from `src/quantity.rs`.  Note: the source performs no
physical-quantity compatibility check. -/
def add (a b : Qty) : QtyResult := rebuild a (a.as_f64 + b.as_f64)

/-- `impl Sub for Qty` from `src/quantity.rs`. -/
def sub (a b : Qty) : QtyResult := rebuild a (a.as_f64 - b.as_f64)

/-- `impl Mul for Qty` from `src/quantity.rs`. -/
def mul (a b : Qty) : QtyResult := rebuild a (a.as_f64 * b.as_f64)

/-- `impl Div for Qty` from `src/quantity.rs`. -/
def div (a b : Qty) : QtyResult := rebuild a (a.as_f64 / b.as_f64)

/-- `impl Neg for Qty` from `src/quantity.rs`. -/
def neg (q : Qty) : QtyResult :=
  match Qty.new ((Num.new (-q.as_f64)).toPfx q.number.pfx) q.unit.base with
  | none => .panic
  | some q0 =>
    match q0.to_unit q.unit with
    | .ok q1 => .ok q1
    | _ => .panic

/-- `Qty::abs` from `src/quantity.rs`. -/
def abs (q : Qty) : Option Qty :=
  Qty.new ((Num.new |q.as_f64|).toPfx q.number.pfx) q.unit

/-- `impl MulAssign<f64> for Qty` from `src/quantity.rs`: `self.number *= rhs`. -/
def mulAssign (q : Qty) (s : ℚ) : Qty := ⟨q.number.mulAssign s, q.unit⟩

/-- `impl PartialEq for Qty` from `src/quantity.rs`: physical quantities must
agree, then resolved base-unit values are compared. -/
def qtyEq (a b : Qty) : Bool :=
  if a.phys ≠ b.phys then false else decide (a.as_f64 = b.as_f64)

end Qty

/-- Canonical form of a quantity (the kilogram/gram invariant of `Qty::new`):
the displayed prefix is never stacked on `kilogram`, and a `gram` quantity
never carries exactly the `kilo` prefix. -/
def QtyCanon (q : Qty) : Prop :=
  (q.unit = Unit.Kilogram → q.number.pfx = Pfx.Nothing) ∧
  (q.unit = Unit.Gram → q.number.pfx ≠ Pfx.Kilo)

/-! ### Basic facts about prefixes and numbers -/

lemma Pfx.as_f64_eq (p : Pfx) : p.as_f64 = (10 : ℚ) ^ p.exp := by
  cases p <;> norm_num [Pfx.as_f64, Pfx.exp]

lemma Pfx.as_f64_pos (p : Pfx) : 0 < p.as_f64 := by
  cases p <;> norm_num [Pfx.as_f64]

lemma Pfx.as_f64_ne (p : Pfx) : p.as_f64 ≠ 0 :=
  ne_of_gt p.as_f64_pos

lemma Pfx.exp_range (p : Pfx) : -30 ≤ p.exp ∧ p.exp ≤ 30 := by
  cases p <;> decide

lemma Pfx.tryFrom_exp (p : Pfx) : Pfx.tryFrom p.exp = some p := by
  cases p <;> decide

lemma Pfx.tryFrom_exp_eq {e : Int} {p : Pfx} (h : Pfx.tryFrom e = some p) :
    p.exp = e := by
  unfold Pfx.tryFrom at h
  by_cases hc0 : e = (-30 : Int)
  · rw [if_pos hc0] at h
    injection h with h2
    subst h2
    subst hc0
    rfl
  rw [if_neg hc0] at h
  by_cases hc1 : e = (-27 : Int)
  · rw [if_pos hc1] at h
    injection h with h2
    subst h2
    subst hc1
    rfl
  rw [if_neg hc1] at h
  by_cases hc2 : e = (-24 : Int)
  · rw [if_pos hc2] at h
    injection h with h2
    subst h2
    subst hc2
    rfl
  rw [if_neg hc2] at h
  by_cases hc3 : e = (-21 : Int)
  · rw [if_pos hc3] at h
    injection h with h2
    subst h2
    subst hc3
    rfl
  rw [if_neg hc3] at h
  by_cases hc4 : e = (-18 : Int)
  · rw [if_pos hc4] at h
    injection h with h2
    subst h2
    subst hc4
    rfl
  rw [if_neg hc4] at h
  by_cases hc5 : e = (-15 : Int)
  · rw [if_pos hc5] at h
    injection h with h2
    subst h2
    subst hc5
    rfl
  rw [if_neg hc5] at h
  by_cases hc6 : e = (-12 : Int)
  · rw [if_pos hc6] at h
    injection h with h2
    subst h2
    subst hc6
    rfl
  rw [if_neg hc6] at h
  by_cases hc7 : e = (-9 : Int)
  · rw [if_pos hc7] at h
    injection h with h2
    subst h2
    subst hc7
    rfl
  rw [if_neg hc7] at h
  by_cases hc8 : e = (-6 : Int)
  · rw [if_pos hc8] at h
    injection h with h2
    subst h2
    subst hc8
    rfl
  rw [if_neg hc8] at h
  by_cases hc9 : e = (-3 : Int)
  · rw [if_pos hc9] at h
    injection h with h2
    subst h2
    subst hc9
    rfl
  rw [if_neg hc9] at h
  by_cases hc10 : e = (-2 : Int)
  · rw [if_pos hc10] at h
    injection h with h2
    subst h2
    subst hc10
    rfl
  rw [if_neg hc10] at h
  by_cases hc11 : e = (-1 : Int)
  · rw [if_pos hc11] at h
    injection h with h2
    subst h2
    subst hc11
    rfl
  rw [if_neg hc11] at h
  by_cases hc12 : e = (0 : Int)
  · rw [if_pos hc12] at h
    injection h with h2
    subst h2
    subst hc12
    rfl
  rw [if_neg hc12] at h
  by_cases hc13 : e = (1 : Int)
  · rw [if_pos hc13] at h
    injection h with h2
    subst h2
    subst hc13
    rfl
  rw [if_neg hc13] at h
  by_cases hc14 : e = (2 : Int)
  · rw [if_pos hc14] at h
    injection h with h2
    subst h2
    subst hc14
    rfl
  rw [if_neg hc14] at h
  by_cases hc15 : e = (3 : Int)
  · rw [if_pos hc15] at h
    injection h with h2
    subst h2
    subst hc15
    rfl
  rw [if_neg hc15] at h
  by_cases hc16 : e = (6 : Int)
  · rw [if_pos hc16] at h
    injection h with h2
    subst h2
    subst hc16
    rfl
  rw [if_neg hc16] at h
  by_cases hc17 : e = (9 : Int)
  · rw [if_pos hc17] at h
    injection h with h2
    subst h2
    subst hc17
    rfl
  rw [if_neg hc17] at h
  by_cases hc18 : e = (12 : Int)
  · rw [if_pos hc18] at h
    injection h with h2
    subst h2
    subst hc18
    rfl
  rw [if_neg hc18] at h
  by_cases hc19 : e = (15 : Int)
  · rw [if_pos hc19] at h
    injection h with h2
    subst h2
    subst hc19
    rfl
  rw [if_neg hc19] at h
  by_cases hc20 : e = (18 : Int)
  · rw [if_pos hc20] at h
    injection h with h2
    subst h2
    subst hc20
    rfl
  rw [if_neg hc20] at h
  by_cases hc21 : e = (21 : Int)
  · rw [if_pos hc21] at h
    injection h with h2
    subst h2
    subst hc21
    rfl
  rw [if_neg hc21] at h
  by_cases hc22 : e = (24 : Int)
  · rw [if_pos hc22] at h
    injection h with h2
    subst h2
    subst hc22
    rfl
  rw [if_neg hc22] at h
  by_cases hc23 : e = (27 : Int)
  · rw [if_pos hc23] at h
    injection h with h2
    subst h2
    subst hc23
    rfl
  rw [if_neg hc23] at h
  by_cases hc24 : e = (30 : Int)
  · rw [if_pos hc24] at h
    injection h with h2
    subst h2
    subst hc24
    rfl
  rw [if_neg hc24] at h
  exact Option.noConfusion h

lemma Pfx.exp_eq_zero {p : Pfx} (h : p.exp = 0) : p = Pfx.Nothing := by
  cases p <;> simp_all [Pfx.exp]

lemma Num.toPfx_as_f64 (n : Num) (p : Pfx) : (n.toPfx p).as_f64 = n.as_f64 := by
  have hp := Pfx.as_f64_ne p
  simp only [Num.toPfx, Num.as_f64]
  field_simp

lemma Num.new_toPfx_as_f64 (v : ℚ) (p : Pfx) : ((Num.new v).toPfx p).as_f64 = v := by
  rw [Num.toPfx_as_f64]
  simp only [Num.new, Num.as_f64, Pfx.as_f64]
  norm_num


lemma Num.toPfx_self_id (x : Num) : x.toPfx x.pfx = x := by
  obtain ⟨m, p⟩ := x
  simp [Num.toPfx, div_self (Pfx.as_f64_ne p)]

/-! ### Facts about `Int.log 10` (the model of `log10().floor()`) -/

lemma log10_eq_of_bounds {q : ℚ} {k : ℤ} (h0 : (10 : ℚ) ^ k ≤ q)
    (h1 : q < (10 : ℚ) ^ (k + 1)) : Int.log 10 q = k := by
  have hq : 0 < q := lt_of_lt_of_le (zpow_pos (by norm_num) k) h0
  have hb : (1 : ℕ) < 10 := by norm_num
  have ha : k ≤ Int.log 10 q := by
    rw [← Int.zpow_le_iff_le_log hb hq]
    exact_mod_cast h0
  have hlt : Int.log 10 q < k + 1 := by
    rw [← Int.lt_zpow_iff_log_lt hb hq]
    exact_mod_cast h1
  omega

lemma log10_1000 : Int.log 10 ((1000 : ℚ)) = 3 :=
  log10_eq_of_bounds (by norm_num) (by norm_num)

lemma natLog10_1000 : Nat.log 10 1000 = 3 :=
  Nat.log_eq_of_pow_le_of_lt_pow (by norm_num) (by norm_num)

lemma log10_milli : Int.log 10 ((0.001 : ℚ)) = -3 := by
  refine log10_eq_of_bounds ?_ ?_ <;> norm_num

lemma log10_milli' : Int.log 10 ((1 : ℚ) / 1000) = -3 := by
  refine log10_eq_of_bounds ?_ ?_ <;> norm_num

/-! ### Concrete evaluations of `Num::shortened` -/

lemma eval_shortened_1000 : Num.shortened (Num.new 1000) = .ok ⟨1, Pfx.Kilo⟩ := by
  norm_num +decide [Num.shortened, Num.new, Num.toPfx, Pfx.as_f64, Pfx.exp,
    Pfx.MAX_EXP, Pfx.tryFrom, satI8, log10_1000, natLog10_1000, Num.mk.injEq]

lemma eval_shortened_milli : Num.shortened (Num.new 0.001) = .ok ⟨1, Pfx.Milli⟩ := by
  norm_num +decide [Num.shortened, Num.new, Num.toPfx, Pfx.as_f64, Pfx.exp,
    Pfx.MAX_EXP, Pfx.tryFrom, satI8, log10_milli, log10_milli', Num.mk.injEq]

lemma eval_shortened_neg :
    Num.shortened (Num.new (-1234.5)) = .ok (Num.new (-1234.5)) := by
  norm_num +decide [Num.shortened, Num.new, Num.toPfx, Pfx.as_f64, Num.mk.injEq]

lemma eval_shortened_zero :
    Num.shortened ((Num.new 0).withPfx Pfx.Mega) = .ok (Num.new 0) := by
  norm_num +decide [Num.shortened, Num.new, Num.withPfx]

lemma Qty.new_canon {n : Num} {u : Unit} {q : Qty}
    (h : Qty.new n u = some q) : QtyCanon q := by
  unfold Qty.new at h
  split_ifs at h with h1 h2
  · split at h
    · rename_i p htf
      cases h
      refine ⟨fun hu => by simp at hu, fun _ hk => ?_⟩
      have hexp : p.exp = n.pfx.exp + 3 := Pfx.tryFrom_exp_eq htf
      have hkp : p = Pfx.Kilo := hk
      have h3 : (3 : Int) = n.pfx.exp + 3 := by rw [hkp] at hexp; exact hexp
      have h0 : n.pfx.exp = 0 := by omega
      exact h1.2 (Pfx.exp_eq_zero h0)
    · cases h
  · cases h
    exact ⟨fun _ => rfl, fun hu => by simp at hu⟩
  · cases h
    constructor
    · intro hu
      by_contra hp
      exact h1 ⟨hu, hp⟩
    · intro hu hp
      exact h2 ⟨hu, hp⟩

lemma Qty.toPfx_canon {q : Qty} {p : Pfx} {q' : Qty}
    (h : Qty.toPfx q p = some q') : QtyCanon q' :=
  Qty.new_canon h

lemma Qty.to_unit_canon {q : Qty} {u : Unit} {q' : Qty}
    (h : Qty.to_unit q u = .ok q') : QtyCanon q' := by
  unfold Qty.to_unit at h
  split at h
  · cases h
  · split at h
    · rename_i q2 hn
      cases h
      exact Qty.new_canon hn
    · cases h

lemma Qty.rebuild_canon {a : Qty} {v : ℚ} {q' : Qty}
    (h : Qty.rebuild a v = .ok q') : QtyCanon q' := by
  unfold Qty.rebuild at h
  split at h
  · cases h
  · split at h
    · split at h
      · rename_i h2
        cases h
        exact Qty.toPfx_canon h2
      · cases h
    · cases h

lemma Qty.shortened_canon {q q' : Qty}
    (h : Qty.shortened q = .ok q') : QtyCanon q' := by
  unfold Qty.shortened at h
  split at h
  · cases h
  · split at h
    · rename_i hn
      cases h
      exact Qty.new_canon hn
    · cases h

lemma Qty.mulAssign_canon {q : Qty} (s : ℚ) (h : QtyCanon q) :
    QtyCanon (q.mulAssign s) := h

lemma Qty.neg_canon {q : Qty} {q' : Qty}
    (h : Qty.neg q = .ok q') : QtyCanon q' := by
  unfold Qty.neg at h
  split at h
  · cases h
  · split at h
    · rename_i h1
      cases h
      exact Qty.to_unit_canon h1
    · cases h

lemma Qty.abs_canon {q : Qty} {q' : Qty}
    (h : Qty.abs q = some q') : QtyCanon q' :=
  Qty.new_canon h

end Sinum

namespace Sinum

/-! ### Claim theorems -/

/-- Claim C10: the in-place multiplication `*=` only scales the mantissa:
for `Num` the prefix is unchanged and the mantissa is multiplied by the
scalar; for `Qty` both the unit and the prefix are unchanged, with the same
mantissa scaling — no prefix re-expression, no kilogram/gram
re-normalization. -/
theorem c10_mulAssign_frame :
    ∀ (n : Num) (q : Qty) (s : ℚ),
      (n.mulAssign s).pfx = n.pfx ∧
      (n.mulAssign s).mantissa = n.mantissa * s ∧
      (q.mulAssign s).unit = q.unit ∧
      (q.mulAssign s).number.pfx = q.number.pfx ∧
      (q.mulAssign s).number.mantissa = q.number.mantissa * s :=
  fun _ _ _ => ⟨rfl, rfl, rfl, rfl, rfl⟩

/-- Claim C6: `Num::to_prefix` yields the requested prefix, its mantissa is
exactly `n.mantissa * (n.prefix.factor / p.factor)`, and the resolved value
is preserved (in the exact-rational model the value is preserved exactly,
hence in particular within relative error `1e-9`). -/
theorem c6_toPfx_roundtrip :
    ∀ (n : Num) (p : Pfx),
      (n.toPfx p).pfx = p ∧
      (n.toPfx p).mantissa = n.mantissa * (n.pfx.as_f64 / p.as_f64) ∧
      (n.toPfx p).as_f64 = n.as_f64 ∧
      |(n.toPfx p).as_f64 - n.as_f64| ≤ 1e-9 * |n.as_f64| := by
  intro n p
  refine ⟨rfl, rfl, Num.toPfx_as_f64 n p, ?_⟩
  rw [Num.toPfx_as_f64, sub_self, abs_zero]
  positivity

/-- Claim C5: arithmetic between two `Num`s carries the larger of the two
prefixes (`rustMax`, ordered by exponent) and represents the operator applied
to the two resolved values; arithmetic between a `Num` and a raw scalar
carries the receiver's own prefix.  Includes the concrete example
`2 km + 4 m = 2.004 km`. -/
theorem c5_num_arithmetic_prefix_selection :
    ∀ (a b : Num) (s : ℚ),
      ((a.add b).pfx = Pfx.rustMax a.pfx b.pfx ∧ (a.add b).as_f64 = a.as_f64 + b.as_f64) ∧
      ((a.sub b).pfx = Pfx.rustMax a.pfx b.pfx ∧ (a.sub b).as_f64 = a.as_f64 - b.as_f64) ∧
      ((a.mul b).pfx = Pfx.rustMax a.pfx b.pfx ∧ (a.mul b).as_f64 = a.as_f64 * b.as_f64) ∧
      ((a.div b).pfx = Pfx.rustMax a.pfx b.pfx ∧ (a.div b).as_f64 = a.as_f64 / b.as_f64) ∧
      (Pfx.rustMax a.pfx b.pfx).exp = max a.pfx.exp b.pfx.exp ∧
      ((a.addF64 s).pfx = a.pfx ∧ (a.addF64 s).as_f64 = a.as_f64 + s) ∧
      ((a.subF64 s).pfx = a.pfx ∧ (a.subF64 s).as_f64 = a.as_f64 - s) ∧
      ((a.mulF64 s).pfx = a.pfx ∧ (a.mulF64 s).as_f64 = a.as_f64 * s) ∧
      ((a.divF64 s).pfx = a.pfx ∧ (a.divF64 s).as_f64 = a.as_f64 / s) ∧
      Num.add ⟨2, Pfx.Kilo⟩ ⟨4, Pfx.Nothing⟩ = ⟨2.004, Pfx.Kilo⟩ ∧
      Num.addF64 ⟨2, Pfx.Kilo⟩ 4 = ⟨2.004, Pfx.Kilo⟩ := by
  intro a b s
  refine ⟨⟨rfl, Num.new_toPfx_as_f64 _ _⟩, ⟨rfl, Num.new_toPfx_as_f64 _ _⟩,
    ⟨rfl, Num.new_toPfx_as_f64 _ _⟩, ⟨rfl, Num.new_toPfx_as_f64 _ _⟩, ?_,
    ⟨rfl, Num.new_toPfx_as_f64 _ _⟩, ⟨rfl, Num.new_toPfx_as_f64 _ _⟩,
    ⟨rfl, Num.new_toPfx_as_f64 _ _⟩, ⟨rfl, Num.new_toPfx_as_f64 _ _⟩,
    ?_, ?_⟩
  · unfold Pfx.rustMax
    split_ifs with h <;> omega
  · norm_num +decide [Num.add, Num.new, Num.toPfx, Num.as_f64, Pfx.as_f64,
      Pfx.rustMax, Pfx.exp, Num.mk.injEq]
  · norm_num +decide [Num.addF64, Num.new, Num.toPfx, Num.as_f64, Pfx.as_f64,
      Num.mk.injEq]

/-- Claim C1 (failing input): `Qty` arithmetic performs no physical-quantity
compatibility check at all — adding, subtracting, multiplying or dividing an
ampere quantity and a second quantity silently succeeds (returning the
base-value combination re-expressed in the left operand's unit), instead of
failing hard as the claim and the source's own doc comments state. -/
theorem c1_qty_arith_cross_quantity_silent :
    Qty.add ⟨Num.new 1, Unit.Ampere⟩ ⟨Num.new 1, Unit.Second⟩
      = .ok ⟨Num.new 2, Unit.Ampere⟩ ∧
    Qty.sub ⟨Num.new 1, Unit.Ampere⟩ ⟨Num.new 1, Unit.Second⟩
      = .ok ⟨Num.new 0, Unit.Ampere⟩ ∧
    Qty.mul ⟨Num.new 1, Unit.Ampere⟩ ⟨Num.new 1, Unit.Second⟩
      = .ok ⟨Num.new 1, Unit.Ampere⟩ ∧
    Qty.div ⟨Num.new 1, Unit.Ampere⟩ ⟨Num.new 1, Unit.Second⟩
      = .ok ⟨Num.new 1, Unit.Ampere⟩ := by
  refine ⟨?_, ?_, ?_, ?_⟩ <;>
    norm_num +decide [Qty.add, Qty.sub, Qty.mul, Qty.div, Qty.rebuild, Qty.new,
      Qty.to_unit, Qty.toPfx, Qty.as_f64, Qty.phys, Unit.phys, Unit.factor,
      Unit.base, Num.new, Num.toPfx, Num.as_f64, Num.mulF64, Num.withPfx,
      Pfx.as_f64, Pfx.tryFrom, Num.mk.injEq, Qty.mk.injEq]

/-- Claim C3 (failing input): `Qty::new` panics (modelled by `none`) on the
user-supplied input `Num::new(1.0).with_prefix(Prefix::Deca)` with unit
kilogram, because `Prefix::try_from(1 + 3).unwrap()` fails — so not every
operation returns a typed error.  The claim's own positive example does
hold: `to_unit` across physical quantities returns a `UnitMismatch` error. -/
theorem c3_qty_new_panics_on_deca_kilogram :
    Qty.new ((Num.new 1).withPfx Pfx.Deca) Unit.Kilogram = none ∧
    Qty.new ((Num.new 1).withPfx Pfx.Hecto) Unit.Kilogram = none ∧
    Qty.new ((Num.new 1).withPfx Pfx.Quetta) Unit.Kilogram = none ∧
    Qty.to_unit ⟨Num.new 9.9, Unit.Kilogram⟩ Unit.Second
      = .unitErr Unit.Kilogram Unit.Second := by
  refine ⟨?_, ?_, ?_, ?_⟩ <;>
    norm_num +decide [Qty.new, Qty.to_unit, Qty.phys, Unit.phys, Num.withPfx,
      Num.new, Pfx.tryFrom, Pfx.exp]

/-- Claim C8: `Qty` equality holds exactly when the physical quantities agree
and the resolved base-unit values agree; quantities of different physical
quantities are never equal; `Quantity(1.0, Tonne) == Quantity(1000.0,
Kilogram) == Quantity(1_000_000.0, Gram)`; `Num` equality compares resolved
values only. -/
theorem c8_qty_equality :
    (∀ a b : Qty, Qty.qtyEq a b = true ↔ a.unit.phys = b.unit.phys ∧ a.as_f64 = b.as_f64) ∧
    (∀ a b : Qty, a.unit.phys ≠ b.unit.phys → Qty.qtyEq a b = false) ∧
    (∀ x y : Num, Num.numEq x y = true ↔ x.as_f64 = y.as_f64) ∧
    Qty.new (Num.new 1) Unit.Tonne = some ⟨Num.new 1, Unit.Tonne⟩ ∧
    Qty.new (Num.new 1000) Unit.Kilogram = some ⟨Num.new 1000, Unit.Kilogram⟩ ∧
    Qty.new (Num.new 1000000) Unit.Gram = some ⟨Num.new 1000000, Unit.Gram⟩ ∧
    Qty.qtyEq ⟨Num.new 1, Unit.Tonne⟩ ⟨Num.new 1000, Unit.Kilogram⟩ = true ∧
    Qty.qtyEq ⟨Num.new 1, Unit.Tonne⟩ ⟨Num.new 1000000, Unit.Gram⟩ = true ∧
    Qty.qtyEq ⟨Num.new 1000, Unit.Kilogram⟩ ⟨Num.new 1000000, Unit.Gram⟩ = true := by
  have hiff : ∀ a b : Qty,
      Qty.qtyEq a b = true ↔ a.unit.phys = b.unit.phys ∧ a.as_f64 = b.as_f64 := by
    intro a b
    unfold Qty.qtyEq
    rcases eq_or_ne a.phys b.phys with h | h
    · rw [if_neg (by simpa using h)]
      have h2 : a.unit.phys = b.unit.phys := h
      simp [h2]
    · rw [if_pos (by simpa using h)]
      have h2 : a.unit.phys ≠ b.unit.phys := h
      simp [h2]
  refine ⟨hiff, ?_, ?_, ?_, ?_, ?_, ?_, ?_, ?_⟩
  · intro a b h
    rcases hq : Qty.qtyEq a b with _ | _
    · rfl
    · exact absurd ((hiff a b).mp hq).1 h
  · intro x y
    unfold Num.numEq
    simp
  · norm_num +decide [Qty.new]
  · norm_num +decide [Qty.new]
  · norm_num +decide [Qty.new]
  · norm_num +decide [Qty.qtyEq, Qty.phys, Unit.phys, Qty.as_f64, Num.new,
      Num.as_f64, Pfx.as_f64, Unit.factor]
  · norm_num +decide [Qty.qtyEq, Qty.phys, Unit.phys, Qty.as_f64, Num.new,
      Num.as_f64, Pfx.as_f64, Unit.factor]
  · norm_num +decide [Qty.qtyEq, Qty.phys, Unit.phys, Qty.as_f64, Num.new,
      Num.as_f64, Pfx.as_f64, Unit.factor]

/-- Witness for C8: two quantities of different physical quantities with the
same numeric value compare unequal. -/
theorem c8_qty_equality_witness :
    Qty.qtyEq ⟨Num.new 1, Unit.Second⟩ ⟨Num.new 1, Unit.Ampere⟩ = false :=
  c8_qty_equality.2.1 ⟨Num.new 1, Unit.Second⟩ ⟨Num.new 1, Unit.Ampere⟩ (by decide)

/-- Counterexample to claim C7 as stated: converting between two `Custom`
units with distinct name labels is *not* rejected — `to_unit` succeeds,
because every `Custom` unit carries the same `PhysicalQuantity::Custom`
tag. -/
theorem c7_distinct_custom_labels_not_rejected :
    Qty.to_unit ⟨Num.new 1, Unit.Custom "apple"⟩ (Unit.Custom "orange")
      = .ok ⟨Num.new 1, Unit.Custom "orange"⟩ := by
  norm_num +decide [Qty.to_unit, Qty.new, Qty.phys, Unit.phys, Unit.factor,
    Num.mulF64, Num.new, Num.toPfx, Num.as_f64, Pfx.as_f64, Num.mk.injEq,
    Qty.mk.injEq]

/-- Claim C7 (amended): all `Custom` units share the single physical-quantity
tag `Custom`, so `to_unit` between any two `Custom` units succeeds (returning
the number unchanged, both factors being 1), regardless of their names;
a `Custom` unit is incompatible with every named unit, where `to_unit` fails
with a `UnitMismatch` error. -/
theorem c7_custom_units_single_tag :
    ∀ (s t : String) (n : Num),
      (Unit.Custom s).phys = (Unit.Custom t).phys ∧
      Qty.to_unit ⟨n, Unit.Custom s⟩ (Unit.Custom t) = .ok ⟨n, Unit.Custom t⟩ ∧
      (∀ u : Unit, u.phys ≠ PhysicalQuantity.Custom →
        Qty.to_unit ⟨n, Unit.Custom s⟩ u = .unitErr (Unit.Custom s) u) := by
  intro s t n
  refine ⟨rfl, ?_, ?_⟩
  · unfold Qty.to_unit
    rw [if_neg (by simp [Qty.phys, Unit.phys])]
    have hnum : n.mulF64 ((Unit.Custom s).factor / (Unit.Custom t).factor) = n := by
      obtain ⟨m, p⟩ := n
      have hp := Pfx.as_f64_ne p
      simp only [Num.mulF64, Num.new, Num.toPfx, Num.as_f64, Unit.factor,
        Num.mk.injEq]
      norm_num
      field_simp
      norm_num [Pfx.as_f64]
    rw [hnum]
    unfold Qty.new
    rw [if_neg (by simp), if_neg (by simp)]
  · intro u hu
    unfold Qty.to_unit
    rw [if_pos (by simpa [Qty.phys, Unit.phys] using fun hh => hu hh.symm)]

/-- Witness for C7 (amended): instantiated at `Custom "apple"`, `Custom
"orange"` and the named unit `second`. -/
theorem c7_custom_units_single_tag_witness :
    Qty.to_unit ⟨Num.new 1, Unit.Custom "apple"⟩ Unit.Second
      = .unitErr (Unit.Custom "apple") Unit.Second :=
  (c7_custom_units_single_tag "apple" "orange" (Num.new 1)).2.2 Unit.Second (by decide)


/-- Claim C2: every `Qty` returned by the constructor or by any operation is
in kilogram canonical form, and the normalization acts as specified:
`Qty::new` with unit kilogram and a non-nothing prefix shifts the prefix
exponent by `+3` and rewrites the unit to gram (keeping the mantissa);
`Qty::new` with unit gram and prefix kilo rewrites to kilogram with prefix
nothing; the two concrete examples from the spec; and no operation returns a
`Qty` with unit kilogram and a non-nothing prefix, or unit gram with prefix
kilo. -/
theorem c2_kilogram_canonical_form :
    Qty.new ((Num.new 9.9).withPfx Pfx.Kilo) Unit.Kilogram
      = some ⟨⟨9.9, Pfx.Mega⟩, Unit.Gram⟩ ∧
    Qty.new ((Num.new 9.9).withPfx Pfx.Kilo) Unit.Gram
      = some ⟨⟨9.9, Pfx.Nothing⟩, Unit.Kilogram⟩ ∧
    (∀ (n : Num) (q : Qty), n.pfx ≠ Pfx.Nothing → Qty.new n Unit.Kilogram = some q →
      q.unit = Unit.Gram ∧ q.number.pfx.exp = n.pfx.exp + 3 ∧
        q.number.mantissa = n.mantissa) ∧
    (∀ n : Num, n.pfx = Pfx.Kilo →
      Qty.new n Unit.Gram = some ⟨n.withPfx Pfx.Nothing, Unit.Kilogram⟩) ∧
    (∀ (n : Num) (u : Unit) (q : Qty), Qty.new n u = some q → QtyCanon q) ∧
    (∀ (q : Qty) (p : Pfx) (q' : Qty), Qty.toPfx q p = some q' → QtyCanon q') ∧
    (∀ (q : Qty) (u : Unit) (q' : Qty), Qty.to_unit q u = .ok q' → QtyCanon q') ∧
    (∀ q q' : Qty, Qty.shortened q = .ok q' → QtyCanon q') ∧
    (∀ (a b : Qty) (q' : Qty), Qty.add a b = .ok q' → QtyCanon q') ∧
    (∀ (a b : Qty) (q' : Qty), Qty.sub a b = .ok q' → QtyCanon q') ∧
    (∀ (a b : Qty) (q' : Qty), Qty.mul a b = .ok q' → QtyCanon q') ∧
    (∀ (a b : Qty) (q' : Qty), Qty.div a b = .ok q' → QtyCanon q') ∧
    (∀ q q' : Qty, Qty.neg q = .ok q' → QtyCanon q') ∧
    (∀ q q' : Qty, Qty.abs q = some q' → QtyCanon q') ∧
    (∀ (q : Qty) (s : ℚ), QtyCanon q → QtyCanon (q.mulAssign s)) := by
  refine ⟨?_, ?_, ?_, ?_,
    fun n u q h => Qty.new_canon h,
    fun q p q' h => Qty.toPfx_canon h,
    fun q u q' h => Qty.to_unit_canon h,
    fun q q' h => Qty.shortened_canon h,
    fun a b q' h => Qty.rebuild_canon h,
    fun a b q' h => Qty.rebuild_canon h,
    fun a b q' h => Qty.rebuild_canon h,
    fun a b q' h => Qty.rebuild_canon h,
    fun q q' h => Qty.neg_canon h,
    fun q q' h => Qty.abs_canon h,
    fun q s h => Qty.mulAssign_canon s h⟩
  · norm_num +decide [Qty.new, Num.new, Num.withPfx, Pfx.tryFrom, Pfx.exp]
  · norm_num +decide [Qty.new, Num.new, Num.withPfx]
  · intro n q hne h
    unfold Qty.new at h
    rw [if_pos ⟨rfl, hne⟩] at h
    split at h
    · rename_i p htf
      cases h
      exact ⟨rfl, Pfx.tryFrom_exp_eq htf, rfl⟩
    · cases h
  · intro n hk
    unfold Qty.new
    rw [if_neg (by simp), if_pos ⟨rfl, hk⟩]

/-- Witness for C2: the quantity produced by
`Qty::new(Num::new(9.9).with_prefix(Kilo), Kilogram)` is canonical. -/
theorem c2_kilogram_canonical_form_witness :
    QtyCanon ⟨⟨9.9, Pfx.Mega⟩, Unit.Gram⟩ :=
  c2_kilogram_canonical_form.2.2.2.2.1 ((Num.new 9.9).withPfx Pfx.Kilo)
    Unit.Kilogram ⟨⟨9.9, Pfx.Mega⟩, Unit.Gram⟩
    (by norm_num +decide [Qty.new, Num.new, Num.withPfx, Pfx.tryFrom, Pfx.exp])


/-- Claim C4 (failing input): `Num::shortened` takes `log10` of the *raw*
mantissa, not of its absolute value, so a negative mantissa goes down the
`NaN` path and is returned unchanged — `Num::new(-1234.5).shortened()`
returns `Ok(-1234.5)` (four digits before the decimal point), where the claim
(and the function's own doc comment) require `Ok(-1.2345 k)`.  The claim's
positive-mantissa examples do hold, as does the zero short-circuit. -/
theorem c4_shortened_negative_mantissa_unchanged :
    Num.shortened (Num.new (-1234.5)) = .ok (Num.new (-1234.5)) ∧
    Num.shortened (Num.new 1000) = .ok ⟨1, Pfx.Kilo⟩ ∧
    Num.shortened (Num.new 0.001) = .ok ⟨1, Pfx.Milli⟩ ∧
    Num.shortened ((Num.new 0).withPfx Pfx.Mega) = .ok (Num.new 0) :=
  ⟨eval_shortened_neg, eval_shortened_1000, eval_shortened_milli,
    eval_shortened_zero⟩


/-- Claim C9: shortening is idempotent — whenever `Num::shortened` succeeds,
applying it to the result succeeds again and returns the very same `Num`
(hence a `Num` equal to the first result). -/
theorem c9_shortened_idempotent :
    ∀ n q : Num, Num.shortened n = .ok q → Num.shortened q = .ok q := by
  intro n q h
  unfold Num.shortened at h
  split_ifs at h with h0 hneg hgt
  · -- zero mantissa: the result is `Num::new(0)`
    injection h with h
    subst h
    simp [Num.shortened, Num.new]
  · -- negative mantissa (`NaN` path): the result is the number itself
    injection h with h
    subst h
    have hm : (n.toPfx n.pfx).mantissa = n.mantissa := by
      simp [Num.toPfx, div_self (Pfx.as_f64_ne n.pfx)]
    unfold Num.shortened
    rw [if_neg (by rw [hm]; exact h0), if_pos (by rw [hm]; exact hneg)]
    exact congrArg Except.ok (Num.toPfx_self_id _)
  · -- positive mantissa
    split at h
    rotate_left
    · cases h
    rename_i p htf
    injection h with h
    subst h
    have hmpos : 0 < n.mantissa := lt_of_le_of_ne (not_lt.mp hneg) (Ne.symm h0)
    have hEr := Pfx.exp_range p
    have hEn := Pfx.exp_range n.pfx
    have hpe : p.exp = n.pfx.exp + satI8 (Int.log 10 n.mantissa / 3 * 3) :=
      Pfx.tryFrom_exp_eq htf
    simp only [Pfx.MAX_EXP, not_lt] at hgt
    have hsat : satI8 (Int.log 10 n.mantissa / 3 * 3)
        = Int.log 10 n.mantissa / 3 * 3 := by
      unfold satI8 at hpe ⊢
      split_ifs at hpe ⊢ with hA hB <;> omega
    rw [hsat] at hpe
    have hb : (1 : ℕ) < 10 := by norm_num
    have hlow : (10 : ℚ) ^ Int.log 10 n.mantissa ≤ n.mantissa := by
      have := Int.zpow_log_le_self hb hmpos
      push_cast at this
      exact this
    have hhigh : n.mantissa < (10 : ℚ) ^ (Int.log 10 n.mantissa + 1) := by
      have := Int.lt_zpow_succ_log_self hb n.mantissa
      push_cast at this
      exact this
    have hp10 : (0 : ℚ) < (10 : ℚ) ^ (Int.log 10 n.mantissa / 3 * 3) :=
      zpow_pos (by norm_num) _
    have hq : (n.toPfx p).mantissa
        = n.mantissa / (10 : ℚ) ^ (Int.log 10 n.mantissa / 3 * 3) := by
      show n.mantissa * (n.pfx.as_f64 / p.as_f64) = _
      rw [Pfx.as_f64_eq, Pfx.as_f64_eq, hpe,
        ← zpow_sub₀ (by norm_num : (10 : ℚ) ≠ 0),
        show n.pfx.exp - (n.pfx.exp + Int.log 10 n.mantissa / 3 * 3)
          = -(Int.log 10 n.mantissa / 3 * 3) by ring,
        zpow_neg, div_eq_mul_inv]
    have h1q : 1 ≤ (n.toPfx p).mantissa := by
      rw [hq, le_div_iff₀ hp10, one_mul]
      calc (10 : ℚ) ^ (Int.log 10 n.mantissa / 3 * 3)
          ≤ (10 : ℚ) ^ Int.log 10 n.mantissa :=
            zpow_le_zpow_right₀ (by norm_num) (by omega)
        _ ≤ n.mantissa := hlow
    have hq1000 : (n.toPfx p).mantissa < 1000 := by
      rw [hq, div_lt_iff₀ hp10]
      calc n.mantissa < (10 : ℚ) ^ (Int.log 10 n.mantissa + 1) := hhigh
        _ ≤ (10 : ℚ) ^ (Int.log 10 n.mantissa / 3 * 3 + 3) :=
            zpow_le_zpow_right₀ (by norm_num) (by omega)
        _ = 1000 * (10 : ℚ) ^ (Int.log 10 n.mantissa / 3 * 3) := by
            rw [zpow_add₀ (by norm_num : (10 : ℚ) ≠ 0)]
            norm_num
            ring
    have hqpos : 0 < (n.toPfx p).mantissa := lt_of_lt_of_le zero_lt_one h1q
    have h1q' : ((10 : ℕ) : ℚ) ^ (0 : ℤ) ≤ (n.toPfx p).mantissa := by
      push_cast
      simpa using h1q
    have hl0 : (0 : ℤ) ≤ Int.log 10 (n.toPfx p).mantissa :=
      (Int.zpow_le_iff_le_log hb hqpos).mp h1q'
    have h1000' : (n.toPfx p).mantissa < ((10 : ℕ) : ℚ) ^ (3 : ℤ) := by
      have h3 : ((10 : ℕ) : ℚ) ^ (3 : ℤ) = 1000 := by push_cast; norm_num
      rw [h3]
      exact hq1000
    have hl3 : Int.log 10 (n.toPfx p).mantissa < 3 :=
      (Int.lt_zpow_iff_log_lt hb hqpos).mp h1000'
    have hez : Int.log 10 (n.toPfx p).mantissa / 3 * 3 = 0 := by omega
    have hppfx : (n.toPfx p).pfx = p := rfl
    unfold Num.shortened
    rw [if_neg (ne_of_gt hqpos), if_neg (not_lt.mpr (le_of_lt hqpos)), hez,
      if_neg (by norm_num [Pfx.MAX_EXP]), hppfx,
      show satI8 (0 : ℤ) = (0 : ℤ) from rfl, add_zero, Pfx.tryFrom_exp p]
    exact congrArg Except.ok (Num.toPfx_self_id _)

/-- Witness for C9: instantiated at `Num::new(1000.0)`, whose shortening is
`1.0` with prefix kilo. -/
theorem c9_shortened_idempotent_witness :
    Num.shortened ⟨1, Pfx.Kilo⟩ = .ok ⟨1, Pfx.Kilo⟩ :=
  c9_shortened_idempotent (Num.new 1000) ⟨1, Pfx.Kilo⟩ eval_shortened_1000

end Sinum
